import Mathlib

/-!
Verification of the Gemini Animator front end, shallowly embedded from the
TypeScript source.  The image editor (parameter store, undo/redo history,
render/export pipeline) comes from src/components/ImageEditor.tsx; the
prompt composer and the video-generation job controller come from the
dashboard module (AnimatorDashboard).  JS numbers are modelled as exact
rationals, JS strings as Lean strings, and the asynchronous generation run
as a deterministic trace function parameterised by the backend's behaviour.
-/

namespace GeminiAnimator

/-- Parameter snapshot of the image editor (interface EditorParams,
ImageEditor.tsx lines 4-17).  Numeric fields are exact rationals standing
for JS numbers; `rotation` is kept as a natural number because the code
only ever assigns it multiples of 90 inside [0, 360). -/
structure EditorParams where
  brightness : ℚ
  contrast : ℚ
  saturation : ℚ
  hue : ℚ
  vignette : ℚ
  grayscale : Bool
  sepia : Bool
  rotation : ℕ
  rotateX : ℚ
  rotateY : ℚ
  perspective : ℚ
  cameraShake : ℚ
  deriving DecidableEq, Repr

/-- The object passed to updateParams: a JS Partial of EditorParams, one
optional field per parameter (ImageEditor.tsx line 51). -/
structure EditorParamsPatch where
  brightness : Option ℚ := none
  contrast : Option ℚ := none
  saturation : Option ℚ := none
  hue : Option ℚ := none
  vignette : Option ℚ := none
  grayscale : Option Bool := none
  sepia : Option Bool := none
  rotation : Option ℕ := none
  rotateX : Option ℚ := none
  rotateY : Option ℚ := none
  perspective : Option ℚ := none
  cameraShake : Option ℚ := none
  deriving DecidableEq, Repr

/-- The JS object-spread merge performed by
setParams((prev) => (...prev, ...newParams)) at ImageEditor.tsx line 56:
a field present in the patch overrides the previous value. -/
def mergeParams (prev : EditorParams) (q : EditorParamsPatch) : EditorParams :=
  { brightness := q.brightness.getD prev.brightness
    contrast := q.contrast.getD prev.contrast
    saturation := q.saturation.getD prev.saturation
    hue := q.hue.getD prev.hue
    vignette := q.vignette.getD prev.vignette
    grayscale := q.grayscale.getD prev.grayscale
    sepia := q.sepia.getD prev.sepia
    rotation := q.rotation.getD prev.rotation
    rotateX := q.rotateX.getD prev.rotateX
    rotateY := q.rotateY.getD prev.rotateY
    perspective := q.perspective.getD prev.perspective
    cameraShake := q.cameraShake.getD prev.cameraShake }

/-- The initial default snapshot (useState initialiser, ImageEditor.tsx
lines 27-40). -/
def defaultParams : EditorParams :=
  { brightness := 100, contrast := 100, saturation := 100, hue := 0
    vignette := 0, grayscale := false, sepia := false, rotation := 0
    rotateX := 0, rotateY := 0, perspective := 1000, cameraShake := 0 }

/-- The editor state relevant to history: the two stacks (useState history
and future, ImageEditor.tsx lines 43-44) plus the live params. -/
structure History where
  past : List EditorParams
  future : List EditorParams
  current : EditorParams
  deriving DecidableEq, Repr

/-- The initial editor state: empty stacks, default snapshot. -/
def initialHistory : History := ⟨[], [], defaultParams⟩

/-- updateParams (ImageEditor.tsx lines 51-57): on commit, push the
pre-merge current snapshot onto past and clear future, then merge the
patch into current; otherwise just merge. -/
def updateParams (h : History) (newParams : EditorParamsPatch) (commit : Bool) : History :=
  if commit then
    { past := h.past ++ [h.current], future := []
      current := mergeParams h.current newParams }
  else
    { past := h.past, future := h.future
      current := mergeParams h.current newParams }

/-- undo (ImageEditor.tsx lines 59-65): no-op when past is empty;
otherwise pop the last past entry, push the pre-undo current onto the
front of future, and make the popped entry current. -/
def undo (h : History) : History :=
  match h.past.getLast? with
  | none => h
  | some previous =>
      { past := h.past.dropLast, future := h.current :: h.future
        current := previous }

/-- redo (ImageEditor.tsx lines 67-73): no-op when future is empty;
otherwise shift the first future entry, pushing the pre-redo current onto
the end of past. -/
def redo (h : History) : History :=
  match h.future with
  | [] => h
  | next :: rest =>
      { past := h.past ++ [h.current], future := rest, current := next }

/-- A sequence of committed edits: each patch applied through
updateParams with commit = true. -/
def commitEdits (h : History) (es : List EditorParamsPatch) : History :=
  es.foldl (fun h e => updateParams h e true) h

/-- A sequence of uncommitted (drag) edits: each patch applied through
updateParams with commit = false. -/
def uncommittedEdits (h : History) (es : List EditorParamsPatch) : History :=
  es.foldl (fun h e => updateParams h e false) h

/-- The pre-edit snapshots a run of committed edits pushes, in order:
the current value just before each edit. -/
def snapshots (c : EditorParams) : List EditorParamsPatch → List EditorParams
  | [] => []
  | e :: rest => c :: snapshots (mergeParams c e) rest

/-- The current value after folding a list of merges over a start value. -/
def applyEdits (c : EditorParams) (es : List EditorParamsPatch) : EditorParams :=
  es.foldl mergeParams c

/-- handleSliderStart (ImageEditor.tsx lines 234-237): snapshot the
current params at drag start (dragStartParams.current := spread of
params); the stacks are untouched. -/
def handleSliderStart (h : History) : EditorParams := h.current

/-- handleSliderEnd (ImageEditor.tsx lines 239-248): when a drag-start
snapshot exists, compare it with current by structural equality (the
source compares JSON.stringify output, which on these fixed-shape objects
is structural equality); when they differ, push the drag-start snapshot
onto past and clear future, leaving current as it is; otherwise change
nothing. -/
def handleSliderEnd (h : History) (dragStart : Option EditorParams) : History :=
  match dragStart with
  | none => h
  | some s =>
      if s ≠ h.current then
        { past := h.past ++ [s], future := [], current := h.current }
      else h

/-- One step of the CSS-style filter chain assembled at ImageEditor.tsx
lines 134-136; each constructor is one CSS filter function of the chain
string. -/
inductive FilterOp where
  | brightness (pct : ℚ)
  | contrast (pct : ℚ)
  | saturate (pct : ℚ)
  | hueRotate (deg : ℚ)
  | grayscale
  | sepia
  deriving DecidableEq, Repr

/-- The filter chain of applyChanges (ImageEditor.tsx lines 134-136):
brightness, contrast, saturate, hue-rotate always and in this order, then
grayscale(100%) only when the flag is set, then sepia(100%) only when the
flag is set. -/
def filterChain (p : EditorParams) : List FilterOp :=
  let filters := [FilterOp.brightness p.brightness, FilterOp.contrast p.contrast,
    FilterOp.saturate p.saturation, FilterOp.hueRotate p.hue]
  let filters := if p.grayscale then filters ++ [FilterOp.grayscale] else filters
  if p.sepia then filters ++ [FilterOp.sepia] else filters

/-- The radial-gradient overlay built at ImageEditor.tsx lines 145-162.
`outerRadiusSq` is the square of the source's outerRadius (the source
takes Math.sqrt of exactly this quantity; we carry the square so the
geometry stays inside ℚ).  `color` is the rgb triple of the gradient
colour and `stops` the addColorStop calls as (offset, alpha) pairs. -/
structure VignetteOverlay where
  centerX : ℚ
  centerY : ℚ
  outerRadiusSq : ℚ
  color : ℕ × ℕ × ℕ
  stops : List (ℚ × ℚ)
  deriving DecidableEq, Repr

/-- The vignette overlay for a parameter snapshot over a w × h canvas
(ImageEditor.tsx lines 146-159): centred at (w/2, h/2), outer radius
sqrt((w/2)^2 + (h/2)^2), colour black for positive vignette and white for
negative, stops at offset 0.4 with alpha 0 and offset 1 with alpha
abs(vignette)/100. -/
def vignetteOverlay (p : EditorParams) (w h : ℚ) : VignetteOverlay :=
  { centerX := w / 2
    centerY := h / 2
    outerRadiusSq := (w / 2) ^ 2 + (h / 2) ^ 2
    color := if p.vignette > 0 then (0, 0, 0) else (255, 255, 255)
    stops := [(0.4, 0), (1, |p.vignette| / 100)] }

/-- applyChanges (ImageEditor.tsx lines 118-176), restricted to what is
drawn into the 2D canvas buffer: the filter chain the image is drawn
through, and the vignette overlay, present exactly when vignette is not
zero (line 145).  The 3D tilt / perspective / shake styles touch only the
displayed element, not the buffer. -/
def applyChanges (p : EditorParams) (w h : ℚ) : List FilterOp × Option VignetteOverlay :=
  (filterChain p, if p.vignette ≠ 0 then some (vignetteOverlay p w h) else none)

/-- Modelled from the spec: the HTML canvas radial-gradient colour-stop
interpolation applyChanges relies on (not itself code of this repository):
before the first stop the first stop's alpha holds, between two stops the
alpha is linearly interpolated, after the last stop the last alpha holds. -/
def gradientAlphaAt : List (ℚ × ℚ) → ℚ → ℚ
  | [], _ => 0
  | [(_, a)], _ => a
  | (o1, a1) :: (o2, a2) :: rest, t =>
      if t ≤ o1 then a1
      else if t ≤ o2 then a1 + (a2 - a1) * (t - o1) / (o2 - o1)
      else gradientAlphaAt ((o2, a2) :: rest) t

/-- The two target aspect ratios (type AspectRatio). -/
inductive AspectRatio where
  | sixteenNine
  | nineSixteen
  deriving DecidableEq, Repr

/-- The ratio pair destructured at ImageEditor.tsx line 196. -/
def ratioPair : AspectRatio → ℚ × ℚ
  | AspectRatio.sixteenNine => (16, 9)
  | AspectRatio.nineSixteen => (9, 16)

/-- The rotation-adjusted base dimensions of handleSave (ImageEditor.tsx
lines 198-200): width and height swap when rotation / 90 is odd. -/
def baseDims (w h : ℚ) (rotation : ℕ) : ℚ × ℚ :=
  if (rotation / 90) % 2 ≠ 0 then (h, w) else (w, h)

/-- The output dimensions computed by handleSave (ImageEditor.tsx lines
196-211): width-driven fit (output width = base width, height shrunk to
the ratio), switched to height-driven when the width-driven height
exceeds the base height. -/
def handleSaveDims (w h : ℚ) (rotation : ℕ) (ar : AspectRatio) : ℚ × ℚ :=
  let wRatio := (ratioPair ar).1
  let hRatio := (ratioPair ar).2
  let baseW := (baseDims w h rotation).1
  let baseH := (baseDims w h rotation).2
  let finalWidth := baseW
  let finalHeight := baseW * hRatio / wRatio
  if finalHeight > baseH then (baseH * wRatio / hRatio, baseH)
  else (finalWidth, finalHeight)

/-- JS String.prototype.trim as used by enginePrompt: drop whitespace
from both ends of the character sequence. -/
def jsTrim (s : String) : String :=
  (((s.data.dropWhile Char.isWhitespace).reverse.dropWhile Char.isWhitespace).reverse).asString

/-- JS String.prototype.includes: the needle occurs as a contiguous
substring of the haystack. -/
def jsIncludes (s sub : String) : Bool :=
  s.data.tails.any (fun t => sub.data.isPrefixOf t)

/-- One entry of ADVANCED_CAM_ANGLES (dashboard lines 64-70). -/
structure CamAngleOpt where
  id : String
  name : String
  keyword : String
  deriving DecidableEq, Repr

/-- ADVANCED_CAM_ANGLES (dashboard lines 64-70), icons omitted. -/
def ADVANCED_CAM_ANGLES : List CamAngleOpt :=
  [ ⟨"wide", "Wide Angle", "captured from a sprawling wide-angle perspective"⟩,
    ⟨"closeup", "Close Up", "framed in an intimate close-up shot with extreme detail"⟩,
    ⟨"birdseye", "Bird\x27s Eye", "from a high-altitude bird\x27s eye view looking straight down"⟩,
    ⟨"lowangle", "Low Angle", "filmed from a dramatic low-angle perspective looking upward"⟩,
    ⟨"pov", "POV", "from a first-person point-of-view perspective"⟩ ]

/-- One entry of ADVANCED_MOTION / ADVANCED_ATMOSPHERE (id, name, desc). -/
structure NamedOpt where
  id : String
  name : String
  desc : String
  deriving DecidableEq, Repr

/-- ADVANCED_MOTION (dashboard lines 72-79). -/
def ADVANCED_MOTION : List NamedOpt :=
  [ ⟨"pan", "Smooth Pan", "Horizontal tracking"⟩,
    ⟨"tilt", "Vertical Tilt", "Up/Down sweep"⟩,
    ⟨"zoomin", "Zoom In", "Slow magnification"⟩,
    ⟨"zoomout", "Zoom Out", "Revealing pull-back"⟩,
    ⟨"orbit", "360 Orbit", "Circular turning"⟩,
    ⟨"dolly", "Dolly Push", "Forward movement"⟩ ]

/-- ADVANCED_ATMOSPHERE (dashboard lines 81-88). -/
def ADVANCED_ATMOSPHERE : List NamedOpt :=
  [ ⟨"volumetric", "Volumetric", "God rays and dust"⟩,
    ⟨"neon", "Neon Glow", "Cyberpunk vibrancy"⟩,
    ⟨"fog", "Ethereal Fog", "Mist and mystery"⟩,
    ⟨"rain", "Heavy Rain", "Dramatic downpour"⟩,
    ⟨"golden", "Golden Hour", "Sunset warmth"⟩,
    ⟨"monochrome", "Film Noir", "High contrast B&W"⟩ ]

/-- The speed clause appended for slow speeds (dashboard line 191),
leading space included as in the source template literals. -/
def SLOW_CLAUSE : String := " The animation should be very slow, deliberate, and serene."

/-- The speed clause appended for fast speeds (dashboard line 192). -/
def FAST_CLAUSE : String := " The animation should be fast-paced, high-energy, and dynamic."

/-- The speedInstruction local of enginePrompt (dashboard lines 190-192):
slow clause when speed is at most 0.6, else fast clause when speed is at
least 1.4, else the empty string. -/
def speedInstruction (speed : ℚ) : String :=
  if speed ≤ 0.6 then SLOW_CLAUSE
  else if speed ≥ 1.4 then FAST_CLAUSE
  else ""

/-- The advanced-mode clause of enginePrompt (dashboard lines 194-202):
when advanced mode is on, append the camera-angle keyword, the motion
style name and, when atmosphere tags are selected, their comma-joined
names; a failed table lookup renders as the JS template text "undefined"
(and as the empty string inside Array.join, matching JS semantics). -/
def advancedPart (prompt : String) (isAdvancedMode : Bool) (camAngle motionType : String)
    (atmosphere : List String) : String :=
  if isAdvancedMode then
    let angleKeyword := (ADVANCED_CAM_ANGLES.find? (fun a => a.id == camAngle)).map
      (fun a => a.keyword)
    let motion := (ADVANCED_MOTION.find? (fun m => m.id == motionType)).map
      (fun m => m.name)
    let atmosphereStr :=
      if atmosphere.length > 0 then
        " with " ++ String.intercalate ", "
          (atmosphere.map (fun a =>
            ((ADVANCED_ATMOSPHERE.find? (fun t => t.id == a)).map (fun t => t.name)).getD ""))
          ++ " atmospheric effects"
      else ""
    prompt ++ ". Scene " ++ angleKeyword.getD "undefined" ++
      ". The animation uses a " ++ motion.getD "undefined" ++ " movement style" ++
      atmosphereStr ++ "."
  else prompt

/-- The motion-blur clause (dashboard line 206). -/
def BLUR_CLAUSE : String := " Apply realistic cinematic motion blur."

/-- The stabilization clause (dashboard line 207). -/
def STAB_CLAUSE : String := " Ensure perfectly stabilized, jitter-free camera movement."

/-- enginePrompt (dashboard lines 188-210): base text, then the advanced
clause, then a single space plus the speed instruction, then the optional
motion-blur and stabilization clauses, trimmed at the end. -/
def enginePrompt (prompt : String) (isAdvancedMode : Bool) (camAngle motionType : String)
    (atmosphere : List String) (speed : ℚ) (motionBlur stabilization : Bool) : String :=
  let final := advancedPart prompt isAdvancedMode camAngle motionType atmosphere
  let final := final ++ " " ++ speedInstruction speed
  let final := if motionBlur then final ++ BLUR_CLAUSE else final
  let final := if stabilization then final ++ STAB_CLAUSE else final
  jsTrim final

/-- GenerationState (types module): the job record held in genState. -/
structure GenerationState where
  isGenerating : Bool
  status : String
  progress : ℕ
  error : Option String := none
  videoUrl : Option String := none
  deriving DecidableEq, Repr

/-- LOADING_MESSAGES (dashboard lines 6-13). -/
def LOADING_MESSAGES : List String :=
  [ "Analyzing your frames...",
    "Synthesizing background textures...",
    "Applying temporal coherence...",
    "Gemini is dreaming up your video...",
    "Optimizing cinematic motion...",
    "Finalizing rendering pass..." ]

/-- The state set on submission (dashboard lines 303-307). -/
def initialGenState : GenerationState :=
  { isGenerating := true, status := LOADING_MESSAGES.getD 0 "", progress := 0 }

/-- One poll-tick update (dashboard lines 337-342): the k-th tick shows
message k mod 6 and raises progress by 15 capped at 95. -/
def pollTick (k : ℕ) (prev : GenerationState) : GenerationState :=
  { prev with
      status := LOADING_MESSAGES.getD (k % LOADING_MESSAGES.length) ""
      progress := min (prev.progress + 15) 95 }

/-- The job state after the submission update and k poll ticks. -/
def stateAfter : ℕ → GenerationState
  | 0 => initialGenState
  | k + 1 => pollTick (k + 1) (stateAfter k)

/-- The full sequence of states set while polling: the submission state
followed by the state after each of the n ticks, in order. -/
def statesUpTo : ℕ → List GenerationState
  | 0 => [initialGenState]
  | n + 1 => statesUpTo n ++ [stateAfter (n + 1)]

/-- The success state (dashboard lines 351-356): generating off,
completion status, progress 100, the locally playable video reference. -/
def successState (videoUrl : String) : GenerationState :=
  { isGenerating := false, status := "Generation complete!", progress := 100
    error := none, videoUrl := some videoUrl }

/-- The failure state (dashboard lines 361-366): generating off, Error
status, progress 0, the error message or the fallback when the raised
message is empty/absent (the JS or-else on err.message). -/
def failState (msg : String) : GenerationState :=
  { isGenerating := false, status := "Error", progress := 0
    error := some (if msg = "" then "An unexpected error occurred." else msg)
    videoUrl := none }

/-- The credential-invalid signature tested at dashboard line 360. -/
def CREDENTIAL_ERR : String := "Requested entity was not found."

/-- The backend behaviour a generateVideo run observes: either the
operation completes after some number of poll ticks (with or without a
retrievable video uri), or an error with the given message is raised
after some number of completed ticks (0 = during submission itself). -/
inductive BackendRun where
  | success (polls : ℕ) (link : Option String)
  | failure (ticks : ℕ) (msg : String)
  deriving DecidableEq, Repr

/-- The observable outcome of one generateVideo call: the ordered trace
of setGenState calls, how many times onResetKey was invoked, how many
backend interactions (submit, polls, fetch) completed, and whether the
validation alert was shown. -/
structure RunResult where
  trace : List GenerationState
  resetKeyCalls : ℕ
  backendCalls : ℕ
  alerted : Bool
  deriving DecidableEq, Repr

/-- generateVideo (dashboard lines 297-368) as a deterministic trace
function of the backend behaviour.  Without a start image the function
alerts and returns before any state update or backend call.  Otherwise
the submission state is set, each poll tick appends one state, and the
run ends with the success state when the completed operation carries a
video uri, with no further state when it does not, or with the failure
state when an error is raised — invoking onResetKey exactly when the
message contains the credential signature. -/
def generateVideo (startImage : Option String) (run : BackendRun) : RunResult :=
  match startImage with
  | none => { trace := [], resetKeyCalls := 0, backendCalls := 0, alerted := true }
  | some _ =>
    match run with
    | BackendRun.success polls link =>
        { trace := statesUpTo polls ++
            (match link with | some url => [successState url] | none => [])
          resetKeyCalls := 0
          backendCalls := 1 + polls + (match link with | some _ => 1 | none => 0)
          alerted := false }
    | BackendRun.failure ticks msg =>
        { trace := statesUpTo ticks ++ [failState msg]
          resetKeyCalls := if jsIncludes msg CREDENTIAL_ERR then 1 else 0
          backendCalls := 1 + ticks
          alerted := false }

/-! ## History lemmas -/

/-- Undoing a state whose past ends in x pops x and pushes current onto
future. -/
theorem undo_concat (p : List EditorParams) (x c : EditorParams) (f : List EditorParams) :
    undo ⟨p ++ [x], f, c⟩ = ⟨p, c :: f, x⟩ := by
  simp [undo]

/-- n+1 undos unwind a past of length n+1 completely, moving everything
(in order) in front of the old current on the future stack. -/
theorem undo_iter (p1 : List EditorParams) :
    ∀ (first c : EditorParams) (f : List EditorParams),
      undo^[p1.length + 1] ⟨first :: p1, f, c⟩ = ⟨[], p1 ++ c :: f, first⟩ := by
  induction p1 using List.reverseRecOn with
  | nil =>
      intro first c f
      simpa using undo_concat [] first c f
  | append_singleton q x ih =>
      intro first c f
      have h1 : undo ⟨first :: (q ++ [x]), f, c⟩ = ⟨first :: q, c :: f, x⟩ := by
        simpa using undo_concat (first :: q) x c f
      have h2 : (q ++ [x]).length + 1 = (q.length + 1) + 1 := by simp
      rw [h2, Function.iterate_succ_apply, h1, ih first x (c :: f)]
      simp

/-- Redoing a state whose future starts with next shifts it back,
pushing current onto the past. -/
theorem redo_cons (p f : List EditorParams) (next c : EditorParams) :
    redo ⟨p, next :: f, c⟩ = ⟨p ++ [c], f, next⟩ := rfl

/-- n+1 redos consume the first n+1 future entries, ending with the last
consumed entry current and everything before it back on the past. -/
theorem redo_iter (g1 : List EditorParams) :
    ∀ (last c : EditorParams) (p f : List EditorParams),
      redo^[g1.length + 1] ⟨p, g1 ++ last :: f, c⟩ = ⟨p ++ c :: g1, f, last⟩ := by
  induction g1 with
  | nil =>
      intro last c p f
      simpa using redo_cons p f last c
  | cons a rest ih =>
      intro last c p f
      have h1 : redo ⟨p, (a :: rest) ++ last :: f, c⟩ = ⟨p ++ [c], rest ++ last :: f, a⟩ := rfl
      rw [List.length_cons, Function.iterate_succ_apply, h1, ih last a (p ++ [c]) f]
      simp

/-- A committed-edit run starts by pushing the current snapshot. -/
theorem commitEdits_cons (h : History) (e : EditorParamsPatch) (es : List EditorParamsPatch) :
    commitEdits h (e :: es) =
      commitEdits ⟨h.past ++ [h.current], [], mergeParams h.current e⟩ es := rfl

/-- A committed-edit run pushes one snapshot per edit. -/
theorem snapshots_length (es : List EditorParamsPatch) :
    ∀ c : EditorParams, (snapshots c es).length = es.length := by
  induction es with
  | nil => intro c; rfl
  | cons e rest ih => intro c; simp [snapshots, ih]

/-- Shape of a nonempty committed-edit run: the pre-edit snapshots are
appended to the past in order, the future is cleared, and the current is
the fold of the merges. -/
theorem commitEdits_shape (es : List EditorParamsPatch) :
    ∀ (p f : List EditorParams) (c : EditorParams), es ≠ [] →
      commitEdits ⟨p, f, c⟩ es = ⟨p ++ snapshots c es, [], applyEdits c es⟩ := by
  induction es with
  | nil => intro p f c hne; exact absurd rfl hne
  | cons e rest ih =>
      intro p f c _
      rw [commitEdits_cons]
      cases hr : rest with
      | nil =>
          simp [commitEdits, snapshots, applyEdits]
      | cons e2 rest2 =>
          rw [← hr, ih (p ++ [c]) [] (mergeParams c e) (by simp [hr])]
          simp [snapshots, applyEdits]

/-- Uncommitted edits never touch the stacks. -/
theorem uncommitted_stacks (es : List EditorParamsPatch) :
    ∀ h : History, (uncommittedEdits h es).past = h.past ∧
      (uncommittedEdits h es).future = h.future := by
  induction es with
  | nil => intro h; exact ⟨rfl, rfl⟩
  | cons e rest ih =>
      intro h
      exact ⟨(ih (updateParams h e false)).1, (ih (updateParams h e false)).2⟩

/-! ## Claim theorems -/

/-- C1: starting from the initial default snapshot, after any sequence of
n committed edits, n undos return the current params to the default
snapshot and n subsequent redos return them to the state after the last
edit; undo is a no-op on an empty past and redo a no-op on an empty
future. -/
theorem spec_c1 (es : List EditorParamsPatch) :
    (undo^[es.length] (commitEdits initialHistory es)).current = defaultParams ∧
    (redo^[es.length] (undo^[es.length] (commitEdits initialHistory es))).current
      = (commitEdits initialHistory es).current ∧
    (∀ (f : List EditorParams) (c : EditorParams), undo ⟨[], f, c⟩ = ⟨[], f, c⟩) ∧
    (∀ (p : List EditorParams) (c : EditorParams), redo ⟨p, [], c⟩ = ⟨p, [], c⟩) := by
  refine ⟨?_, ?_, fun f c => rfl, fun p c => rfl⟩
  · cases es with
    | nil => rfl
    | cons e rest =>
        have hshape := commitEdits_shape (e :: rest) [] [] defaultParams (by simp)
        have hsnap : snapshots defaultParams (e :: rest)
            = defaultParams :: snapshots (mergeParams defaultParams e) rest := rfl
        have hlen : (snapshots (mergeParams defaultParams e) rest).length = rest.length :=
          snapshots_length rest (mergeParams defaultParams e)
        have hu : undo^[(e :: rest).length] (commitEdits initialHistory (e :: rest))
            = ⟨[], snapshots (mergeParams defaultParams e) rest
                    ++ applyEdits defaultParams (e :: rest) :: [], defaultParams⟩ := by
          show undo^[(e :: rest).length] (commitEdits ⟨[], [], defaultParams⟩ (e :: rest)) = _
          rw [hshape, List.nil_append, hsnap, List.length_cons, ← hlen]
          exact undo_iter _ defaultParams (applyEdits defaultParams (e :: rest)) []
        rw [hu]
  · cases es with
    | nil => rfl
    | cons e rest =>
        have hshape := commitEdits_shape (e :: rest) [] [] defaultParams (by simp)
        have hsnap : snapshots defaultParams (e :: rest)
            = defaultParams :: snapshots (mergeParams defaultParams e) rest := rfl
        have hlen : (snapshots (mergeParams defaultParams e) rest).length = rest.length :=
          snapshots_length rest (mergeParams defaultParams e)
        have hu : undo^[(e :: rest).length] (commitEdits initialHistory (e :: rest))
            = ⟨[], snapshots (mergeParams defaultParams e) rest
                    ++ applyEdits defaultParams (e :: rest) :: [], defaultParams⟩ := by
          show undo^[(e :: rest).length] (commitEdits ⟨[], [], defaultParams⟩ (e :: rest)) = _
          rw [hshape, List.nil_append, hsnap, List.length_cons, ← hlen]
          exact undo_iter _ defaultParams (applyEdits defaultParams (e :: rest)) []
        rw [hu, List.length_cons, ← hlen,
          redo_iter _ (applyEdits defaultParams (e :: rest)) defaultParams [] []]
        show applyEdits defaultParams (e :: rest)
            = (commitEdits ⟨[], [], defaultParams⟩ (e :: rest)).current
        rw [hshape]

/-- C3: a commit = true update pushes the pre-merge current snapshot
onto the end of past, empties future, and merges the patch into current;
a commit = false update merges and leaves both stacks unchanged. -/
theorem spec_c3 (h : History) (q : EditorParamsPatch) :
    updateParams h q true = ⟨h.past ++ [h.current], [], mergeParams h.current q⟩ ∧
    updateParams h q false = ⟨h.past, h.future, mergeParams h.current q⟩ :=
  ⟨rfl, rfl⟩

/-- C4: during a drag no uncommitted update touches past or future, and
the drag-end commit pushes exactly the drag-start snapshot and clears
future when that snapshot differs from the current params, changing
nothing when they are equal. -/
theorem spec_c4 (h0 : History) (es : List EditorParamsPatch) :
    (uncommittedEdits h0 es).past = h0.past ∧
    (uncommittedEdits h0 es).future = h0.future ∧
    handleSliderEnd (uncommittedEdits h0 es) (some (handleSliderStart h0)) =
      (if handleSliderStart h0 = (uncommittedEdits h0 es).current
       then uncommittedEdits h0 es
       else ⟨h0.past ++ [handleSliderStart h0], [], (uncommittedEdits h0 es).current⟩) := by
  obtain ⟨hp, hf⟩ := uncommitted_stacks es h0
  refine ⟨hp, hf, ?_⟩
  by_cases hc : handleSliderStart h0 = (uncommittedEdits h0 es).current
  · simp [handleSliderEnd, hc]
  · simp only [handleSliderEnd]
    rw [if_pos hc, hp, if_neg hc]

/-- handleSaveDims with its lets resolved. -/
theorem handleSaveDims_eq (w h : ℚ) (rotation : ℕ) (ar : AspectRatio) :
    handleSaveDims w h rotation ar =
      if (baseDims w h rotation).1 * (ratioPair ar).2 / (ratioPair ar).1
          > (baseDims w h rotation).2
      then ((baseDims w h rotation).2 * (ratioPair ar).1 / (ratioPair ar).2,
            (baseDims w h rotation).2)
      else ((baseDims w h rotation).1,
            (baseDims w h rotation).1 * (ratioPair ar).2 / (ratioPair ar).1) := rfl

/-- The rotation-adjusted base dimensions are positive for a positive
source. -/
theorem baseDims_pos (w h : ℚ) (rotation : ℕ) (hw : 0 < w) (hh : 0 < h) :
    0 < (baseDims w h rotation).1 ∧ 0 < (baseDims w h rotation).2 := by
  unfold baseDims
  split <;> exact ⟨by assumption, by assumption⟩

/-- C2: for every positive source, planar rotation in 0/90/180/270 and
either target aspect ratio, the export dimensions match the requested
ratio exactly (cross-multiplied), never exceed the rotation-adjusted base
dimensions, and the fit is width-driven unless the width-driven height
would exceed the base height, in which case it is height-driven. -/
theorem spec_c2 (w h : ℚ) (rotation : ℕ) (ar : AspectRatio)
    (hw : 0 < w) (hh : 0 < h) (hrot : rotation ∈ [0, 90, 180, 270]) :
    (handleSaveDims w h rotation ar).1 * (ratioPair ar).2
        = (handleSaveDims w h rotation ar).2 * (ratioPair ar).1 ∧
    (handleSaveDims w h rotation ar).1 ≤ (baseDims w h rotation).1 ∧
    (handleSaveDims w h rotation ar).2 ≤ (baseDims w h rotation).2 ∧
    (¬ (baseDims w h rotation).1 * (ratioPair ar).2 / (ratioPair ar).1
          > (baseDims w h rotation).2 →
        (handleSaveDims w h rotation ar).1 = (baseDims w h rotation).1) ∧
    ((baseDims w h rotation).1 * (ratioPair ar).2 / (ratioPair ar).1
          > (baseDims w h rotation).2 →
        (handleSaveDims w h rotation ar).2 = (baseDims w h rotation).2) := by
  obtain ⟨hbw, hbh⟩ := baseDims_pos w h rotation hw hh
  set bW := (baseDims w h rotation).1 with hbW
  set bH := (baseDims w h rotation).2 with hbH
  rw [handleSaveDims_eq]
  cases ar <;> simp only [ratioPair] <;> split <;> rename_i hsplit
  · exact ⟨by ring, by linarith, le_refl _, fun hc => absurd hsplit hc, fun _ => rfl⟩
  · push_neg at hsplit
    exact ⟨by ring, le_refl _, hsplit, fun _ => rfl, fun hc => absurd hc (not_lt.mpr hsplit)⟩
  · exact ⟨by ring, by linarith, le_refl _, fun hc => absurd hsplit hc, fun _ => rfl⟩
  · push_neg at hsplit
    exact ⟨by ring, le_refl _, hsplit, fun _ => rfl, fun hc => absurd hc (not_lt.mpr hsplit)⟩

/-- C2 witness: a concrete 100 × 50 source, no rotation, 16:9 target. -/
theorem spec_c2_witness :
    (0 : ℚ) < 100 ∧ (0 : ℚ) < 50 ∧ (0 : ℕ) ∈ [0, 90, 180, 270] ∧
    (handleSaveDims 100 50 0 AspectRatio.sixteenNine).1 * 9
      = (handleSaveDims 100 50 0 AspectRatio.sixteenNine).2 * 16 :=
  ⟨by norm_num, by norm_num, by decide,
   (spec_c2 100 50 0 AspectRatio.sixteenNine (by norm_num) (by norm_num) (by decide)).1⟩

/-- C9: the live-preview render composes brightness, contrast,
saturation, hue-rotate in this fixed order, then grayscale only when the
flag is set, then sepia only when the flag is set; the vignette overlay
is present exactly when vignette is nonzero, centred on the image, with
outer radius half the image diagonal (stated on squares), black for
positive and white for negative vignette, fully transparent up to 40% of
the radius, and of opacity abs(vignette)/100 at the edge. -/
theorem spec_c9 (p : EditorParams) (w h : ℚ) :
    (applyChanges p w h).1 =
      [FilterOp.brightness p.brightness, FilterOp.contrast p.contrast,
       FilterOp.saturate p.saturation, FilterOp.hueRotate p.hue] ++
      (if p.grayscale then [FilterOp.grayscale] else []) ++
      (if p.sepia then [FilterOp.sepia] else []) ∧
    ((applyChanges p w h).2 = none ↔ p.vignette = 0) ∧
    (p.vignette ≠ 0 → (applyChanges p w h).2 = some (vignetteOverlay p w h)) ∧
    (vignetteOverlay p w h).centerX = w / 2 ∧
    (vignetteOverlay p w h).centerY = h / 2 ∧
    4 * (vignetteOverlay p w h).outerRadiusSq = w ^ 2 + h ^ 2 ∧
    (0 < p.vignette → (vignetteOverlay p w h).color = (0, 0, 0)) ∧
    (p.vignette < 0 → (vignetteOverlay p w h).color = (255, 255, 255)) ∧
    (∀ t : ℚ, 0 ≤ t → t ≤ 0.4 →
      gradientAlphaAt (vignetteOverlay p w h).stops t = 0) ∧
    gradientAlphaAt (vignetteOverlay p w h).stops 1 = |p.vignette| / 100 := by
  refine ⟨?_, ?_, ?_, rfl, rfl, by unfold vignetteOverlay; ring, ?_, ?_, ?_, ?_⟩
  · cases hg : p.grayscale <;> cases hs : p.sepia <;>
      simp [applyChanges, filterChain, hg, hs]
  · by_cases hv : p.vignette = 0 <;> simp [applyChanges, hv]
  · intro hv; simp [applyChanges, hv]
  · intro hv; simp [vignetteOverlay, hv]
  · intro hv; simp [vignetteOverlay, not_lt.mpr (le_of_lt hv)]
  · intro t _ ht
    simp only [vignetteOverlay, gradientAlphaAt]
    rw [if_pos ht]
  · simp only [vignetteOverlay, gradientAlphaAt]
    rw [if_neg (by norm_num), if_pos (le_refl (1 : ℚ))]
    norm_num

/-- C9 witness: a concrete snapshot with vignette 50 over a 4 × 3
canvas, alpha sampled at one fifth of the radius. -/
theorem spec_c9_witness :
    ((0 : ℚ) ≤ 1/5 ∧ (1/5 : ℚ) ≤ 0.4) ∧
    gradientAlphaAt (vignetteOverlay { defaultParams with vignette := 50 } 4 3).stops (1/5)
      = 0 ∧
    gradientAlphaAt (vignetteOverlay { defaultParams with vignette := 50 } 4 3).stops 1
      = 1 / 2 :=
  ⟨⟨by norm_num, by norm_num⟩,
   (spec_c9 { defaultParams with vignette := 50 } 4 3).2.2.2.2.2.2.2.2.1
     (1/5) (by norm_num) (by norm_num),
   by
    have := (spec_c9 { defaultParams with vignette := 50 } 4 3).2.2.2.2.2.2.2.2.2
    rw [this]; norm_num⟩

/-- Dropping whitespace from both ends ignores a trailing space (stated
on the character list). -/
theorem trim_chars_append_space (l : List Char) :
    ((l ++ [' ']).dropWhile Char.isWhitespace).reverse.dropWhile Char.isWhitespace
      = (l.dropWhile Char.isWhitespace).reverse.dropWhile Char.isWhitespace := by
  have hsp : (' ').isWhitespace = true := by decide
  induction l with
  | nil => simp [List.dropWhile_cons, hsp]
  | cons a l ih =>
      by_cases ha : Char.isWhitespace a
      · simp only [List.cons_append, List.dropWhile_cons, ha, if_true]
        exact ih
      · simp only [List.cons_append, List.dropWhile_cons, ha, Bool.false_eq_true, if_false]
        simp [List.dropWhile_cons, hsp]

/-- JS trim ignores a trailing space appended to a string. -/
theorem jsTrim_append_space (s : String) : jsTrim (s ++ " ") = jsTrim s := by
  unfold jsTrim
  rw [String.data_append]
  show ((((s.data ++ [' ']).dropWhile Char.isWhitespace).reverse.dropWhile
      Char.isWhitespace).reverse).asString = _
  rw [trim_chars_append_space]

/-- C5: the composed prompt is the trim of base-with-advanced-clause, a
space, the speed clause, then the optional blur and stabilization
clauses; the speed clause is the slow text exactly on speeds at most
0.6, the fast text exactly on speeds at least 1.4, and empty on the
neutral band; and with advanced mode off, speed 1.0 and both flags off
the composed prompt is exactly the trimmed base text. -/
theorem spec_c5 (base : String) (adv : Bool) (camAngle motionType : String)
    (atmosphere : List String) (speed : ℚ) (motionBlur stabilization : Bool) :
    enginePrompt base adv camAngle motionType atmosphere speed motionBlur stabilization
      = jsTrim (advancedPart base adv camAngle motionType atmosphere ++ " "
          ++ speedInstruction speed
          ++ (if motionBlur then BLUR_CLAUSE else "")
          ++ (if stabilization then STAB_CLAUSE else "")) ∧
    (speed ≤ 0.6 → speedInstruction speed = SLOW_CLAUSE) ∧
    (0.6 < speed → speed < 1.4 → speedInstruction speed = "") ∧
    (1.4 ≤ speed → speedInstruction speed = FAST_CLAUSE) ∧
    enginePrompt base false camAngle motionType atmosphere 1 false false = jsTrim base := by
  refine ⟨?_, ?_, ?_, ?_, ?_⟩
  · cases motionBlur <;> cases stabilization <;>
      simp [enginePrompt, String.append_assoc]
  · intro hs; simp [speedInstruction, hs]
  · intro h1 h2
    simp [speedInstruction, not_le.mpr h1, not_le.mpr h2]
  · intro hs
    have : ¬ speed ≤ 0.6 := by
      intro hc; have : (0.6 : ℚ) < 1.4 := by norm_num
      linarith
    simp [speedInstruction, this, hs]
  · have hneutral : speedInstruction 1 = "" := by
      simp [speedInstruction]
      norm_num
    show jsTrim (advancedPart base false camAngle motionType atmosphere ++ " "
        ++ speedInstruction 1) = jsTrim base
    rw [hneutral]
    show jsTrim (base ++ " " ++ "") = jsTrim base
    rw [String.append_empty]
    exact jsTrim_append_space base

/-- C5 witness: concrete instances of the three speed bands and the
neutral composition law. -/
theorem spec_c5_witness :
    ((1 : ℚ)/2 ≤ 0.6 ∧ speedInstruction (1/2) = SLOW_CLAUSE) ∧
    ((0.6 : ℚ) < 1 ∧ (1 : ℚ) < 1.4 ∧ speedInstruction 1 = "") ∧
    ((1.4 : ℚ) ≤ 2 ∧ speedInstruction 2 = FAST_CLAUSE) ∧
    enginePrompt "Test" false "wide" "pan" [] 1 false false = jsTrim "Test" :=
  ⟨⟨by norm_num, (spec_c5 "Test" false "wide" "pan" [] (1/2) false false).2.1 (by norm_num)⟩,
   ⟨by norm_num, by norm_num,
    (spec_c5 "Test" false "wide" "pan" [] 1 false false).2.2.1 (by norm_num) (by norm_num)⟩,
   ⟨by norm_num, (spec_c5 "Test" false "wide" "pan" [] 2 false false).2.2.2.1 (by norm_num)⟩,
   (spec_c5 "Test" false "wide" "pan" [] 1 false false).2.2.2.2⟩

/-- The synthetic progress after k poll ticks is min(15 k, 95). -/
theorem progress_stateAfter (k : ℕ) : (stateAfter k).progress = min (15 * k) 95 := by
  induction k with
  | zero => simp [stateAfter, initialGenState]
  | succ k ih =>
      simp only [stateAfter, pollTick, ih]
      omega

/-- The polling trace ends with the state after the last tick. -/
theorem statesUpTo_getLast (n : ℕ) :
    (statesUpTo n).getLast? = some (stateAfter n) := by
  cases n with
  | zero => rfl
  | succ n => simp [statesUpTo]

/-- Fields of the job state preserved or rotated by poll ticks: the job
stays generating, with no video and no error, showing the rotating
loading message. -/
theorem stateAfter_fields (k : ℕ) :
    (stateAfter k).isGenerating = true ∧ (stateAfter k).videoUrl = none ∧
    (stateAfter k).error = none ∧
    (stateAfter k).status = LOADING_MESSAGES.getD (k % LOADING_MESSAGES.length) "" := by
  induction k with
  | zero => exact ⟨rfl, rfl, rfl, rfl⟩
  | succ k ih =>
      refine ⟨?_, ?_, ?_, rfl⟩ <;>
        simp [stateAfter, pollTick, ih.1, ih.2.1, ih.2.2.1]

/-- Progress is non-decreasing along the polling trace. -/
theorem statesUpTo_chain (n : ℕ) :
    List.Chain' (fun a b => a.progress ≤ b.progress) (statesUpTo n) := by
  induction n with
  | zero => simp [statesUpTo]
  | succ n ih =>
      rw [statesUpTo, List.chain'_append]
      refine ⟨ih, by simp, ?_⟩
      intro x hx y hy
      rw [statesUpTo_getLast] at hx
      simp only [Option.mem_def, Option.some.injEq] at hx
      simp only [List.head?_cons, Option.mem_def, Option.some.injEq] at hy
      subst hx; subst hy
      rw [progress_stateAfter, progress_stateAfter]
      omega

/-- Every state shown while polling has progress strictly below 100. -/
theorem statesUpTo_lt100 (n : ℕ) :
    (statesUpTo n).all (fun s => decide (s.progress < 100)) = true := by
  induction n with
  | zero => decide
  | succ n ih =>
      rw [statesUpTo, List.all_append]
      simp only [ih, Bool.true_and, List.all_cons, List.all_nil, Bool.and_true,
        decide_eq_true_eq, progress_stateAfter]
      omega

/-- C6: the synthetic progress is non-decreasing across poll ticks,
strictly below 100 on every state set before the operation completes (in
successful, link-less and failing runs alike), and equals 100 exactly in
the success state appended only when the completed operation carries a
retrievable video link. -/
theorem spec_c6 (img url : String) (polls t : ℕ) (m : String) :
    List.Chain' (fun a b => a.progress ≤ b.progress) (statesUpTo polls) ∧
    (statesUpTo polls).all (fun s => decide (s.progress < 100)) = true ∧
    (generateVideo (some img) (BackendRun.success polls (some url))).trace
        = statesUpTo polls ++ [successState url] ∧
    (generateVideo (some img) (BackendRun.success polls none)).trace = statesUpTo polls ∧
    (generateVideo (some img) (BackendRun.failure t m)).trace.all
        (fun s => decide (s.progress < 100)) = true ∧
    (successState url).progress = 100 := by
  refine ⟨statesUpTo_chain polls, statesUpTo_lt100 polls, rfl,
    by simp [generateVideo], ?_, rfl⟩
  show (statesUpTo t ++ [failState m]).all (fun s => decide (s.progress < 100)) = true
  rw [List.all_append]
  simp [statesUpTo_lt100 t, failState]

/-- C7: submitting with no starting image alerts and returns before any
backend interaction or state update: the trace of setGenState calls is
empty (the job never leaves its current Idle state), no backend call is
made, and only the validation alert is produced. -/
theorem spec_c7 (run : BackendRun) :
    generateVideo none run =
      { trace := [], resetKeyCalls := 0, backendCalls := 0, alerted := true } := rfl

/-- C8 (amended): every failing run ends in the Failed state carrying
the raised message when it is non-empty (the fallback text when it is
empty), and the credential-reset callback is invoked exactly once when
the message contains the credential-invalid signature and never
otherwise. -/
theorem spec_c8 (img : String) (ticks : ℕ) (msg : String) :
    (generateVideo (some img) (BackendRun.failure ticks msg)).trace.getLast?
        = some (failState msg) ∧
    (failState msg).isGenerating = false ∧
    (failState msg).status = "Error" ∧
    (failState msg).error
        = some (if msg = "" then "An unexpected error occurred." else msg) ∧
    (failState msg).videoUrl = none ∧
    (generateVideo (some img) (BackendRun.failure ticks msg)).resetKeyCalls
        = (if jsIncludes msg CREDENTIAL_ERR then 1 else 0) := by
  refine ⟨?_, rfl, rfl, rfl, rfl, rfl⟩
  show (statesUpTo ticks ++ [failState msg]).getLast? = some (failState msg)
  simp

/-- C8 counterexample: the claim as stated (raw message always surfaced)
fails on an error whose message is the empty string — the code
substitutes the fallback text, so the surfaced error is not the raw
message. -/
theorem spec_c8_counterexample :
    (generateVideo (some "img") (BackendRun.failure 0 "")).trace.getLast?
        = some (failState "") ∧
    (failState "").error = some "An unexpected error occurred." ∧
    ¬ (failState "").error = some "" := by
  refine ⟨rfl, rfl, by decide⟩

/-- C10: when the operation completes without a retrievable video link,
the run ends with no further state update: the last (and final) state is
the last polling state, still marked generating, with its last synthetic
progress and rotating status, and with neither a video reference nor an
error ever set. -/
theorem spec_c10 (img : String) (polls : ℕ) :
    (generateVideo (some img) (BackendRun.success polls none)).trace
        = statesUpTo polls ∧
    (generateVideo (some img) (BackendRun.success polls none)).trace.getLast?
        = some (stateAfter polls) ∧
    (stateAfter polls).isGenerating = true ∧
    (stateAfter polls).videoUrl = none ∧
    (stateAfter polls).error = none ∧
    (stateAfter polls).progress = min (15 * polls) 95 ∧
    (stateAfter polls).status
        = LOADING_MESSAGES.getD (polls % LOADING_MESSAGES.length) "" := by
  obtain ⟨hg, hv, he, hs⟩ := stateAfter_fields polls
  refine ⟨by simp [generateVideo], ?_, hg, hv, he, progress_stateAfter polls, hs⟩
  show (statesUpTo polls ++ []).getLast? = some (stateAfter polls)
  rw [List.append_nil]
  exact statesUpTo_getLast polls

end GeminiAnimator
